import Mathlib

/-!
Verification development for the realtime-chat repository.

The repository contains two server variants:
* `src/server/server.js` — the MongoDB-backed Socket.IO server ("srv" definitions);
* `src/unnamed/part_000`  — the in-memory Socket.IO server ("mem" definitions),
  preceded by a smoke-test client.

Handlers are embedded as pure functions over explicit state.  JavaScript
`a || b` string truthiness (empty string and null are falsy) is modelled by
`truthy` / `jsOrS`; JS `Map`s and the Mongo message collections are modelled
as association lists / lists, with `Map.set` on an existing key replacing the
entry in place and otherwise appending (insertion order), matching JS `Map`
semantics.  Mongo collections have unique `_id`s, so `findById` is `find?` by
id and an in-place document mutation is `modFirst` on the first id match.
-/

namespace RTChat

/-- JS string truthiness: `null`/`undefined` (`none`) and `""` are falsy. -/
def truthy (a : Option String) : Option String :=
  match a with
  | some s => if s = "" then none else some s
  | none => none

/-- JS `a || b` for an optional string with a string default. -/
def jsOrS (a : Option String) (b : String) : String :=
  match truthy a with
  | some s => s
  | none => b

/-- JS `a || b` for two optional strings (result may still be falsy/none). -/
def jsOr (a b : Option String) : Option String :=
  match truthy a with
  | some s => some s
  | none => truthy b

/-- JS `String.prototype.trim()`: strip leading and trailing whitespace
(modelled character-wise so that it evaluates in the kernel). -/
def jsTrim (s : String) : String :=
  ⟨((s.data.dropWhile (fun c => c.isWhitespace)).reverse.dropWhile
      (fun c => c.isWhitespace)).reverse⟩

/-- Apply `f` to the first element satisfying `p` (in-place mutation of the
object returned by a first-match lookup such as `Array.prototype.find` or
`Map.get`). -/
def modFirst {α : Type} (p : α → Bool) (f : α → α) : List α → List α
  | [] => []
  | x :: xs => if p x then f x :: xs else x :: modFirst p f xs

/-- `Array.prototype.slice(-n)`: the last `n` elements. -/
def lastN {α : Type} (n : Nat) (l : List α) : List α :=
  l.drop (l.length - n)

/-- JS `Map.set`: replace the value of an existing key in place, else append. -/
def setAssoc {α : Type} : List (String × α) → String → α → List (String × α)
  | [], k, v => [(k, v)]
  | (k', v') :: xs, k, v =>
      if k' = k then (k, v) :: xs else (k', v') :: setAssoc xs k v

/-- JS `Map.get`. -/
def lookupA {α : Type} : List (String × α) → String → Option α
  | [], _ => none
  | (k', v') :: xs, k => if k' = k then some v' else lookupA xs k

/-- Acknowledgement payload surface `{ok, error?}`. -/
structure Ack where
  ok : Bool
  err : Option String
deriving Repr, DecidableEq

/-! ### Generic list lemmas for the `Map`/collection model -/

theorem find?_append_none {α : Type} (p : α → Bool) (l l' : List α)
    (h : l.find? p = none) : (l ++ l').find? p = l'.find? p := by
  induction l with
  | nil => simp
  | cons x xs ih =>
    rw [List.find?] at h
    cases hx : p x with
    | true => simp [hx] at h
    | false =>
      rw [hx] at h
      simp only [List.cons_append, List.find?, hx]
      exact ih h

theorem find?_modFirst {α : Type} (p : α → Bool) (f : α → α) (l : List α)
    (a : α) (hfind : l.find? p = some a) (hpf : p (f a) = true) :
    (modFirst p f l).find? p = some (f a) := by
  induction l with
  | nil => simp at hfind
  | cons x xs ih =>
    rw [List.find?] at hfind
    cases hx : p x with
    | true =>
      rw [hx] at hfind
      simp only [Option.some.injEq] at hfind
      subst hfind
      simp [modFirst, hx, List.find?, hpf]
    | false =>
      rw [hx] at hfind
      simp only [modFirst, hx, if_false, List.find?]
      exact ih hfind

theorem modFirst_eq_self {α : Type} (p : α → Bool) (f : α → α) (l : List α)
    (a : α) (hfind : l.find? p = some a) (hfa : f a = a) :
    modFirst p f l = l := by
  induction l with
  | nil => rfl
  | cons x xs ih =>
    rw [List.find?] at hfind
    cases hx : p x with
    | true =>
      rw [hx] at hfind
      simp only [Option.some.injEq] at hfind
      subst hfind
      simp [modFirst, hx, hfa]
    | false =>
      rw [hx] at hfind
      simp only [modFirst]
      rw [if_neg (by simp [hx]), ih hfind]

theorem mem_modFirst {α : Type} (p : α → Bool) (f : α → α) (l : List α)
    (x : α) (hx : x ∈ modFirst p f l) : x ∈ l ∨ ∃ y ∈ l, x = f y := by
  induction l with
  | nil => simp [modFirst] at hx
  | cons z zs ih =>
    simp only [modFirst] at hx
    by_cases hz : p z = true
    · rw [if_pos hz] at hx
      rcases List.mem_cons.mp hx with h | h
      · exact Or.inr ⟨z, List.mem_cons_self z zs, h⟩
      · exact Or.inl (List.mem_cons_of_mem _ h)
    · rw [if_neg hz] at hx
      rcases List.mem_cons.mp hx with h | h
      · exact Or.inl (h ▸ List.mem_cons_self z zs)
      · rcases ih h with h' | ⟨y, hy, hxy⟩
        · exact Or.inl (List.mem_cons_of_mem _ h')
        · exact Or.inr ⟨y, List.mem_cons_of_mem _ hy, hxy⟩

theorem lookupA_setAssoc {α : Type} (l : List (String × α)) (k : String) (v : α) :
    lookupA (setAssoc l k v) k = some v := by
  induction l with
  | nil => simp [setAssoc, lookupA]
  | cons x xs ih =>
    rcases x with ⟨k', v'⟩
    simp only [setAssoc]
    by_cases hk : k' = k
    · simp [hk, lookupA]
    · simp [hk, lookupA, ih]

theorem length_lastN {α : Type} (n : Nat) (l : List α) : (lastN n l).length ≤ n := by
  simp only [lastN, List.length_drop]
  omega

/-! ## Reactions (src/server/server.js, `socket.on('reaction')`, lines 295–353)

The Mongo `Message` document stores `reactions` as a list of
`{emoji, users, count}` entries.  The handler:
```js
let r = msg.reactions.find(x => x.emoji === emoji);
if (!r) { msg.reactions.push({ emoji, users: [by], count: 1 }); }
else {
  if (r.users.includes(by)) {
    r.users = r.users.filter(u => u !== by);
    r.count = r.users.length;
    if (r.count === 0) msg.reactions = msg.reactions.filter(x => x.emoji !== emoji);
  } else { r.users.push(by); r.count = r.users.length; }
}
```
-/

structure ReactionEntry where
  emoji : String
  users : List String
  count : Nat
deriving Repr, DecidableEq

/-- The state update of `socket.on('reaction')` on a message's `reactions`
array, for payload `{emoji, by}`. -/
def applyReaction (rs : List ReactionEntry) (emoji byUser : String) :
    List ReactionEntry :=
  match rs.find? (fun x => x.emoji == emoji) with
  | none => rs ++ [⟨emoji, [byUser], 1⟩]
  | some r =>
    if byUser ∈ r.users then
      -- `r.users = r.users.filter(u => u !== by); r.count = r.users.length`
      if (r.users.filter (fun u => u ≠ byUser)).length = 0 then
        rs.filter (fun x => x.emoji ≠ emoji)
      else
        modFirst (fun x => x.emoji == emoji)
          (fun _ => ⟨emoji, r.users.filter (fun u => u ≠ byUser),
                     (r.users.filter (fun u => u ≠ byUser)).length⟩) rs
    else
      modFirst (fun x => x.emoji == emoji)
        (fun _ => ⟨emoji, r.users ++ [byUser], (r.users ++ [byUser]).length⟩) rs

/-- Whether a reaction by `u` on `emoji` is recorded (membership of `u` in the
user-set of the entry found for `emoji`). -/
def userReacted (rs : List ReactionEntry) (emoji u : String) : Bool :=
  match rs.find? (fun x => x.emoji == emoji) with
  | none => false
  | some r => decide (u ∈ r.users)

theorem applyReaction_find?_none (rs : List ReactionEntry) (e u : String)
    (h : rs.find? (fun x => x.emoji == e) = none) :
    applyReaction rs e u = rs ++ [⟨e, [u], 1⟩] := by
  unfold applyReaction
  split
  · rfl
  · rename_i r heq
    rw [h] at heq
    exact Option.noConfusion heq

theorem applyReaction_not_mem (rs : List ReactionEntry) (e u : String)
    (r0 : ReactionEntry) (h : rs.find? (fun x => x.emoji == e) = some r0)
    (hu : u ∉ r0.users) :
    applyReaction rs e u =
      modFirst (fun x => x.emoji == e)
        (fun _ => ⟨e, r0.users ++ [u], (r0.users ++ [u]).length⟩) rs := by
  unfold applyReaction
  split
  · rename_i heq
    rw [h] at heq
    exact Option.noConfusion heq
  · rename_i r heq
    rw [h] at heq
    cases heq
    rw [if_neg hu]

theorem applyReaction_mem_last (rs : List ReactionEntry) (e u : String)
    (r0 : ReactionEntry) (h : rs.find? (fun x => x.emoji == e) = some r0)
    (hu : u ∈ r0.users)
    (hz : (r0.users.filter (fun x => x ≠ u)).length = 0) :
    applyReaction rs e u = rs.filter (fun x => x.emoji ≠ e) := by
  unfold applyReaction
  split
  · rename_i heq
    rw [h] at heq
    exact Option.noConfusion heq
  · rename_i r heq
    rw [h] at heq
    cases heq
    rw [if_pos hu, if_pos hz]

theorem applyReaction_mem_rest (rs : List ReactionEntry) (e u : String)
    (r0 : ReactionEntry) (h : rs.find? (fun x => x.emoji == e) = some r0)
    (hu : u ∈ r0.users)
    (hz : (r0.users.filter (fun x => x ≠ u)).length ≠ 0) :
    applyReaction rs e u =
      modFirst (fun x => x.emoji == e)
        (fun _ => ⟨e, r0.users.filter (fun x => x ≠ u),
                   (r0.users.filter (fun x => x ≠ u)).length⟩) rs := by
  unfold applyReaction
  split
  · rename_i heq
    rw [h] at heq
    exact Option.noConfusion heq
  · rename_i r heq
    rw [h] at heq
    cases heq
    rw [if_pos hu, if_neg hz]

/-- Every entry of `applyReaction rs e u` either was in `rs` or has the shape
`⟨e, us, us.length⟩` for a non-empty `us`. -/
theorem applyReaction_forall (rs : List ReactionEntry) (e u : String)
    (P : ReactionEntry → Prop) (hP : ∀ r ∈ rs, P r)
    (hnew : ∀ us : List String, us ≠ [] → P ⟨e, us, us.length⟩) :
    ∀ r ∈ applyReaction rs e u, P r := by
  intro r hr
  unfold applyReaction at hr
  cases hfind : rs.find? (fun x => x.emoji == e) with
  | none =>
    rw [hfind] at hr
    rcases List.mem_append.mp hr with h | h
    · exact hP r h
    · simp only [List.mem_singleton] at h
      subst h
      exact hnew [u] (by simp)
  | some r0 =>
    rw [hfind] at hr
    by_cases hu : u ∈ r0.users
    · simp only [hu, if_true] at hr
      by_cases hz : (r0.users.filter (fun x => x ≠ u)).length = 0
      · simp only [hz, if_true] at hr
        exact hP r (List.mem_of_mem_filter hr)
      · simp only [hz, if_false] at hr
        rcases mem_modFirst _ _ _ _ hr with h | ⟨y, _, hxy⟩
        · exact hP r h
        · subst hxy
          exact hnew _ (fun hnil => hz (by rw [hnil]; rfl))
    · simp only [hu, if_false] at hr
      rcases mem_modFirst _ _ _ _ hr with h | ⟨y, _, hxy⟩
      · exact hP r h
      · subst hxy
        exact hnew _ (by simp)

theorem applyReaction_no_empty (rs : List ReactionEntry) (e u : String)
    (h : ∀ r ∈ rs, r.users ≠ []) :
    ∀ r ∈ applyReaction rs e u, r.users ≠ [] :=
  applyReaction_forall rs e u (fun r => r.users ≠ []) h (fun _ hne => hne)

/-- C1 (amended): for a stored message on which `u` has not already reacted
with emoji `e`, applying the `reaction` operation of `src/server/server.js`
twice with the same `(emoji, by)` leaves no reaction recorded for `u` on `e`,
and (when no reaction entry had an empty user-set before) no entry with an
empty user-set remains. -/
theorem reaction_toggle_twice (rs : List ReactionEntry) (e u : String)
    (h : userReacted rs e u = false)
    (hne : ∀ r ∈ rs, r.users ≠ []) :
    userReacted (applyReaction (applyReaction rs e u) e u) e u = false ∧
    ∀ r ∈ applyReaction (applyReaction rs e u) e u, r.users ≠ [] := by
  refine ⟨?_, applyReaction_no_empty _ e u (applyReaction_no_empty rs e u hne)⟩
  cases hfind : rs.find? (fun x => x.emoji == e) with
  | none =>
    rw [applyReaction_find?_none rs e u hfind]
    have hfind1 : (rs ++ [(⟨e, [u], 1⟩ : ReactionEntry)]).find?
        (fun x => x.emoji == e) = some ⟨e, [u], 1⟩ := by
      rw [find?_append_none _ _ _ hfind]
      simp [List.find?]
    have hz : (((⟨e, [u], 1⟩ : ReactionEntry).users).filter
        (fun x => x ≠ u)).length = 0 := by simp
    rw [applyReaction_mem_last _ e u _ hfind1 (by simp) hz]
    unfold userReacted
    have hnone : ((rs ++ [(⟨e, [u], 1⟩ : ReactionEntry)]).filter
        (fun x => x.emoji ≠ e)).find? (fun x => x.emoji == e) = none := by
      rw [List.find?_eq_none]
      intro x hx
      have hxe := (List.mem_filter.mp hx).2
      simp at hxe ⊢
      exact hxe
    rw [hnone]
  | some r0 =>
    have hu : u ∉ r0.users := by
      have h' : decide (u ∈ r0.users) = false := by
        unfold userReacted at h
        rw [hfind] at h
        exact h
      exact of_decide_eq_false h'
    have hr0ne : r0.users ≠ [] := hne r0 (List.mem_of_find?_eq_some hfind)
    rw [applyReaction_not_mem rs e u r0 hfind hu]
    have hfind1 : (modFirst (fun x => x.emoji == e)
        (fun _ => (⟨e, r0.users ++ [u], (r0.users ++ [u]).length⟩ : ReactionEntry)) rs).find?
        (fun x => x.emoji == e)
        = some ⟨e, r0.users ++ [u], (r0.users ++ [u]).length⟩ :=
      find?_modFirst _ _ _ _ hfind (by simp)
    have humem : u ∈ ((⟨e, r0.users ++ [u], (r0.users ++ [u]).length⟩ : ReactionEntry)).users := by
      simp
    have hfilter : (((⟨e, r0.users ++ [u], (r0.users ++ [u]).length⟩ : ReactionEntry)).users.filter
        (fun x => x ≠ u)) = r0.users := by
      show ((r0.users ++ [u]).filter (fun x => x ≠ u)) = r0.users
      rw [List.filter_append]
      have h1 : r0.users.filter (fun x => x ≠ u) = r0.users := by
        rw [List.filter_eq_self]
        intro a ha
        simp only [ne_eq, decide_eq_true_eq]
        intro hau
        exact hu (hau ▸ ha)
      have h2 : ([u].filter (fun x => x ≠ u)) = ([] : List String) := by simp
      rw [h1, h2, List.append_nil]
    have hz : ((((⟨e, r0.users ++ [u], (r0.users ++ [u]).length⟩ : ReactionEntry)).users.filter
        (fun x => x ≠ u)).length) ≠ 0 := by
      rw [hfilter]
      intro hlen
      exact hr0ne (List.length_eq_zero.mp hlen)
    rw [applyReaction_mem_rest _ e u _ hfind1 humem hz]
    unfold userReacted
    rw [find?_modFirst _ _ _ _ hfind1 (by simp)]
    simp only [hfilter]
    simp [hu]

/-- C1 counterexample: the claim as stated fails on a message where `u` has
already reacted with `e` — two further `reaction` calls toggle the reaction
off and then back on, leaving `u`'s reaction recorded. -/
theorem reaction_toggle_twice_cx :
    userReacted (applyReaction (applyReaction [⟨"heart", ["u1"], 1⟩] "heart" "u1")
      "heart" "u1") "heart" "u1" = true := by decide

theorem reaction_toggle_twice_witness :
    userReacted (applyReaction (applyReaction [⟨"smile", ["a"], 1⟩] "smile" "b")
      "smile" "b") "smile" "b" = false ∧
    ∀ r ∈ applyReaction (applyReaction [⟨"smile", ["a"], 1⟩] "smile" "b") "smile" "b",
      r.users ≠ [] :=
  reaction_toggle_twice [⟨"smile", ["a"], 1⟩] "smile" "b" (by decide) (by decide)

/-- C10: the `reaction` handler of `src/server/server.js` preserves the
implicit invariant that every reaction entry's `count` equals the length of
its `users` list and no entry has an empty `users` list. -/
theorem reaction_count_invariant (rs : List ReactionEntry) (e u : String)
    (h : ∀ r ∈ rs, r.count = r.users.length ∧ r.users ≠ []) :
    ∀ r ∈ applyReaction rs e u, r.count = r.users.length ∧ r.users ≠ [] :=
  applyReaction_forall rs e u _ h (fun _ hus => ⟨rfl, hus⟩)

theorem reaction_count_invariant_witness :
    (⟨"smile", ["a", "b"], 2⟩ : ReactionEntry).count
        = (⟨"smile", ["a", "b"], 2⟩ : ReactionEntry).users.length ∧
    (⟨"smile", ["a", "b"], 2⟩ : ReactionEntry).users ≠ [] :=
  reaction_count_invariant [⟨"smile", ["a"], 1⟩] "smile" "b" (by decide)
    ⟨"smile", ["a", "b"], 2⟩ (by decide)

/-! ## The Mongo message collection (src/server/server.js)

A `Message` document: `{content, from, to, room, private, file, reactions,
readBy, timestamp}`.  The collection is modelled as a list of documents with
unique `_id`s; `Message.findById` is `find?` on the id and
`Message.findByIdAndDelete` removes the documents with that id. -/

structure StoredMessage where
  id : String
  fromUser : String        -- `from`
  toUser : Option String   -- `to`
  room : Option String
  content : Option String
  isPrivate : Bool         -- `private`
  readBy : List String
  reactions : List ReactionEntry
  timestamp : Nat
deriving Repr, DecidableEq

/-- `socket.on('deleteMessage')` (src/server/server.js lines 534–563):
requester is `socket.clerkUser?.username || onlineUsers.get(socket.id) ||
null`; `allowAdmin` is `process.env.ALLOW_ADMIN_DELETE === 'true'`.  Returns
the new collection and the acknowledgement. -/
def deleteMessage (store : List StoredMessage) (messageId : Option String)
    (requester : Option String) (allowAdmin : Bool) :
    List StoredMessage × Ack :=
  match messageId with
  | none => (store, ⟨false, some "messageId required"⟩)
  | some mid =>
    if mid = "" then (store, ⟨false, some "messageId required"⟩)
    else
      match store.find? (fun m => m.id == mid) with
      | none => (store, ⟨false, some "not_found"⟩)
      | some msg =>
        if some msg.fromUser ≠ requester ∧ allowAdmin = false then
          (store, ⟨false, some "not_authorized"⟩)
        else
          (store.filter (fun m => m.id ≠ mid), ⟨true, none⟩)

/-- C2: with the admin-override flag unset, `deleteMessage` by a non-sender is
acknowledged `{ok:false, error:'not_authorized'}` and leaves the collection
unchanged; by the sender it removes the message and is acknowledged
`{ok:true}`. -/
theorem deleteMessage_auth (store : List StoredMessage) (mid : String)
    (m : StoredMessage) (requester : Option String)
    (hmid : mid ≠ "")
    (hfind : store.find? (fun x => x.id == mid) = some m) :
    (requester ≠ some m.fromUser →
      deleteMessage store (some mid) requester false
        = (store, ⟨false, some "not_authorized"⟩)) ∧
    (requester = some m.fromUser →
      deleteMessage store (some mid) requester false
        = (store.filter (fun x => x.id ≠ mid), ⟨true, none⟩) ∧
      m ∉ (deleteMessage store (some mid) requester false).1) := by
  have hdel : deleteMessage store (some mid) requester false
      = if some m.fromUser ≠ requester ∧ (false : Bool) = false then
          (store, ⟨false, some "not_authorized"⟩)
        else (store.filter (fun x => x.id ≠ mid), ⟨true, none⟩) := by
    simp only [deleteMessage]
    rw [if_neg hmid]
    split
    · rename_i heq
      rw [hfind] at heq
      exact Option.noConfusion heq
    · rename_i msg heq
      rw [hfind] at heq
      cases heq
      rfl
  constructor
  · intro hreq
    rw [hdel, if_pos ⟨fun he => hreq he.symm, rfl⟩]
  · intro hreq
    have hneg : ¬(some m.fromUser ≠ requester ∧ (false : Bool) = false) := by
      intro hand
      exact hand.1 hreq.symm
    have hid := List.find?_some hfind
    refine ⟨by rw [hdel, if_neg hneg], ?_⟩
    rw [hdel, if_neg hneg]
    intro hmem
    have := (List.mem_filter.mp hmem).2
    simp only [decide_eq_true_eq] at this
    exact this (by simpa using hid)

theorem deleteMessage_auth_witness :
    (some "bob" ≠ some "alice" →
      deleteMessage
        [⟨"m1", "alice", none, some "global", some "hi", false, [], [], 5⟩]
        (some "m1") (some "bob") false
        = ([⟨"m1", "alice", none, some "global", some "hi", false, [], [], 5⟩],
           ⟨false, some "not_authorized"⟩)) ∧
    (some "bob" = some "alice" →
      deleteMessage
        [⟨"m1", "alice", none, some "global", some "hi", false, [], [], 5⟩]
        (some "m1") (some "bob") false
        = ([⟨"m1", "alice", none, some "global", some "hi", false, [], [], 5⟩].filter
            (fun x => x.id ≠ "m1"), ⟨true, none⟩) ∧
      (⟨"m1", "alice", none, some "global", some "hi", false, [], [], 5⟩ : StoredMessage) ∉
        (deleteMessage
          [⟨"m1", "alice", none, some "global", some "hi", false, [], [], 5⟩]
          (some "m1") (some "bob") false).1) :=
  deleteMessage_auth
    [⟨"m1", "alice", none, some "global", some "hi", false, [], [], 5⟩]
    "m1" ⟨"m1", "alice", none, some "global", some "hi", false, [], [], 5⟩
    (some "bob") (by decide) (by decide)

/-- `socket.on('mark_read')` (src/server/server.js lines 221–240): the reader
identity is `onlineUsers.get(socket.id) || socket.clerkUser?.username ||
'anon-' + socket.id.slice(0,6)`. -/
def resolveReader (onlineName clerkUsername : Option String)
    (socketId : String) : String :=
  jsOrS onlineName (jsOrS clerkUsername ("anon-" ++ socketId.take 6))

def mark_read (store : List StoredMessage) (messageId : Option String)
    (onlineName clerkUsername : Option String) (socketId : String) :
    List StoredMessage × Ack :=
  match messageId with
  | none => (store, ⟨false, some "messageId required"⟩)
  | some mid =>
    if mid = "" then (store, ⟨false, some "messageId required"⟩)
    else
      match store.find? (fun m => m.id == mid) with
      | none => (store, ⟨false, some "not_found"⟩)
      | some _ =>
        let reader := resolveReader onlineName clerkUsername socketId
        (modFirst (fun m => m.id == mid)
          (fun m => if reader ∈ m.readBy then m
                    else { m with readBy := m.readBy ++ [reader] }) store,
         ⟨true, none⟩)

theorem mark_read_found (store : List StoredMessage) (mid : String)
    (m : StoredMessage) (onlineName clerkUsername : Option String)
    (socketId : String) (hmid : mid ≠ "")
    (hfind : store.find? (fun x => x.id == mid) = some m) :
    mark_read store (some mid) onlineName clerkUsername socketId
      = (modFirst (fun x => x.id == mid)
          (fun x => if resolveReader onlineName clerkUsername socketId ∈ x.readBy then x
                    else { x with readBy :=
                      x.readBy ++ [resolveReader onlineName clerkUsername socketId] }) store,
         ⟨true, none⟩) := by
  simp only [mark_read]
  rw [if_neg hmid]
  split
  · rename_i heq
    rw [hfind] at heq
    exact Option.noConfusion heq
  · rfl

/-- C8: `mark_read` is idempotent — from a state where the reader has not yet
read the found message, two invocations leave `readBy` containing the reader
exactly once, both are acknowledged `{ok:true}`, the second changes nothing,
and `mark_read` on an id absent from the collection fails `not_found`. -/
theorem mark_read_idempotent (store : List StoredMessage) (mid : String)
    (m : StoredMessage) (onlineName clerkUsername : Option String)
    (socketId : String) (hmid : mid ≠ "")
    (hfind : store.find? (fun x => x.id == mid) = some m)
    (hu : resolveReader onlineName clerkUsername socketId ∉ m.readBy) :
    (mark_read store (some mid) onlineName clerkUsername socketId).2 = ⟨true, none⟩ ∧
    (mark_read (mark_read store (some mid) onlineName clerkUsername socketId).1
        (some mid) onlineName clerkUsername socketId).2 = ⟨true, none⟩ ∧
    (mark_read (mark_read store (some mid) onlineName clerkUsername socketId).1
        (some mid) onlineName clerkUsername socketId).1
      = (mark_read store (some mid) onlineName clerkUsername socketId).1 ∧
    (∃ m2, (mark_read (mark_read store (some mid) onlineName clerkUsername socketId).1
        (some mid) onlineName clerkUsername socketId).1.find?
          (fun x => x.id == mid) = some m2 ∧
      m2.readBy.count (resolveReader onlineName clerkUsername socketId) = 1) ∧
    (∀ st : List StoredMessage, st.find? (fun x => x.id == mid) = none →
      mark_read st (some mid) onlineName clerkUsername socketId
        = (st, ⟨false, some "not_found"⟩)) := by
  set u := resolveReader onlineName clerkUsername socketId with hueq
  have hid := List.find?_some hfind
  set f : StoredMessage → StoredMessage :=
    fun x => if u ∈ x.readBy then x else { x with readBy := x.readBy ++ [u] } with hf
  have hfm : f m = { m with readBy := m.readBy ++ [u] } := by
    rw [hf]
    exact if_neg hu
  have h1 := mark_read_found store mid m onlineName clerkUsername socketId hmid hfind
  -- the collection after the first call
  have hfind1 : (modFirst (fun x => x.id == mid) f store).find? (fun x => x.id == mid)
      = some { m with readBy := m.readBy ++ [u] } := by
    have := find?_modFirst (fun x => x.id == mid) f store m hfind (by rw [hfm]; exact hid)
    rw [hfm] at this
    exact this
  have hstore1 : (mark_read store (some mid) onlineName clerkUsername socketId).1
      = modFirst (fun x => x.id == mid) f store := by rw [h1]
  have h2 := mark_read_found (modFirst (fun x => x.id == mid) f store) mid
    { m with readBy := m.readBy ++ [u] } onlineName clerkUsername socketId hmid hfind1
  have hfix : f { m with readBy := m.readBy ++ [u] } = { m with readBy := m.readBy ++ [u] } := by
    rw [hf]
    exact if_pos (by simp)
  have hsecond : modFirst (fun x => x.id == mid) f (modFirst (fun x => x.id == mid) f store)
      = modFirst (fun x => x.id == mid) f store :=
    modFirst_eq_self _ _ _ _ hfind1 hfix
  refine ⟨by rw [h1], ?_, ?_, ?_, ?_⟩
  · rw [hstore1, h2]
  · rw [hstore1, h2, hsecond]
  · refine ⟨{ m with readBy := m.readBy ++ [u] }, ?_, ?_⟩
    · rw [hstore1, h2]
      simpa [hsecond] using hfind1
    · simp only [List.count_append]
      rw [List.count_eq_zero.mpr hu]
      simp
  · intro st hnone
    simp only [mark_read]
    rw [if_neg hmid, hnone]

theorem mark_read_idempotent_witness :
    (mark_read [⟨"m1", "alice", none, some "global", some "hi", false, [], [], 5⟩]
      (some "m1") (some "bob") none "sock01").2 = ⟨true, none⟩ ∧
    (mark_read (mark_read [⟨"m1", "alice", none, some "global", some "hi", false, [], [], 5⟩]
        (some "m1") (some "bob") none "sock01").1
        (some "m1") (some "bob") none "sock01").2 = ⟨true, none⟩ ∧
    (mark_read (mark_read [⟨"m1", "alice", none, some "global", some "hi", false, [], [], 5⟩]
        (some "m1") (some "bob") none "sock01").1
        (some "m1") (some "bob") none "sock01").1
      = (mark_read [⟨"m1", "alice", none, some "global", some "hi", false, [], [], 5⟩]
          (some "m1") (some "bob") none "sock01").1 ∧
    (∃ m2, (mark_read (mark_read
        [⟨"m1", "alice", none, some "global", some "hi", false, [], [], 5⟩]
        (some "m1") (some "bob") none "sock01").1
        (some "m1") (some "bob") none "sock01").1.find?
          (fun x => x.id == "m1") = some m2 ∧
      m2.readBy.count (resolveReader (some "bob") none "sock01") = 1) ∧
    (∀ st : List StoredMessage, st.find? (fun x => x.id == "m1") = none →
      mark_read st (some "m1") (some "bob") none "sock01"
        = (st, ⟨false, some "not_found"⟩)) :=
  mark_read_idempotent
    [⟨"m1", "alice", none, some "global", some "hi", false, [], [], 5⟩]
    "m1" ⟨"m1", "alice", none, some "global", some "hi", false, [], [], 5⟩
    (some "bob") none "sock01" (by decide) (by decide) (by decide)

/-! ## `socket.on('message')` of src/server/server.js (lines 192–210)

```js
const fromName = socket.clerkUser?.username || onlineUsers.get(socket.id)
              || payload.from || 'Anonymous';
const message = new Message({ content: payload.content, from: fromName,
                              room: payload.room || 'global', timestamp: new Date() });
```
The handler's parameter list is `(payload)` only — it never invokes an
acknowledgement callback, so `acks` is the (empty) list of callback
invocations performed on any execution path. -/

structure MsgPayloadSrv where
  content : Option String
  fromField : Option String   -- the client-supplied `from`
  room : Option String
deriving Repr, DecidableEq

structure NewMessageSrv where
  content : Option String
  fromUser : String           -- `from`
  room : String
deriving Repr, DecidableEq

structure SrvMessageResult where
  stored : NewMessageSrv
  acks : List Ack
deriving Repr, DecidableEq

def message_srv (clerkUsername onlineName : Option String) (p : MsgPayloadSrv) :
    SrvMessageResult :=
  { stored := { content := p.content,
                fromUser := jsOrS clerkUsername
                  (jsOrS onlineName (jsOrS p.fromField "Anonymous")),
                room := jsOrS p.room "global" },
    acks := [] }

theorem jsOrS_of_truthy_some (a : Option String) (b s : String)
    (h : truthy a = some s) : jsOrS a b = s := by
  unfold jsOrS
  rw [h]

theorem jsOrS_of_truthy_none (a : Option String) (b : String)
    (h : truthy a = none) : jsOrS a b = b := by
  unfold jsOrS
  rw [h]

/-- C3 counterexample: on a connection whose session provides no identity
(no Clerk username, no `onlineUsers` entry), two `message` requests differing
only in the client-supplied `from` field store different sender fields — the
handler falls back to `payload.from`. -/
theorem message_sender_cx :
    (message_srv none none ⟨some "hi", some "Mallory", some "global"⟩).stored.fromUser
      = "Mallory" ∧
    (message_srv none none ⟨some "hi", some "Alice", some "global"⟩).stored.fromUser
      = "Alice" ∧
    (message_srv none none ⟨some "hi", some "Mallory", some "global"⟩).stored.fromUser
      ≠ (message_srv none none ⟨some "hi", some "Alice", some "global"⟩).stored.fromUser := by
  decide

/-- C3 (amended): whenever the session provides an identity (a truthy Clerk
username or a truthy `onlineUsers` entry), the stored sender is taken from it
and two `message` requests differing only in the client-supplied `from` field
produce identical stored messages. -/
theorem message_sender_from_session (cuName onName : Option String)
    (p1 p2 : MsgPayloadSrv)
    (hsession : truthy cuName ≠ none ∨ truthy onName ≠ none)
    (hc : p1.content = p2.content) (hr : p1.room = p2.room) :
    message_srv cuName onName p1 = message_srv cuName onName p2 := by
  have hfrom : jsOrS cuName (jsOrS onName (jsOrS p1.fromField "Anonymous"))
      = jsOrS cuName (jsOrS onName (jsOrS p2.fromField "Anonymous")) := by
    cases hcu : truthy cuName with
    | some s =>
      rw [jsOrS_of_truthy_some _ _ _ hcu, jsOrS_of_truthy_some _ _ _ hcu]
    | none =>
      rw [jsOrS_of_truthy_none _ _ hcu, jsOrS_of_truthy_none _ _ hcu]
      cases hon : truthy onName with
      | some s =>
        rw [jsOrS_of_truthy_some _ _ _ hon, jsOrS_of_truthy_some _ _ _ hon]
      | none =>
        rcases hsession with h | h
        · exact absurd hcu h
        · exact absurd hon h
  simp only [message_srv]
  rw [hfrom, hc, hr]

theorem message_sender_from_session_witness :
    message_srv (some "alice") none ⟨some "hi", some "Mallory", some "global"⟩
      = message_srv (some "alice") none ⟨some "hi", some "Eve", some "global"⟩ :=
  message_sender_from_session (some "alice") none
    ⟨some "hi", some "Mallory", some "global"⟩ ⟨some "hi", some "Eve", some "global"⟩
    (Or.inl (by decide)) rfl rfl

/-- C6 counterexample: the `message` handler of src/server/server.js performs
zero acknowledgement-callback invocations, so a `message` request that carries
an ack callback is answered zero times, not exactly once. -/
theorem message_ack_never_cx :
    (message_srv (some "alice") (some "alice")
      ⟨some "hi", none, some "global"⟩).acks = ([] : List Ack) ∧
    (message_srv (some "alice") (some "alice")
      ⟨some "hi", none, some "global"⟩).acks.length ≠ 1 := by
  decide

/-! ## `socket.on('join')` of src/server/server.js (lines 165–190)

```js
const name = socket.clerkUser?.username || username || null;
if (!name) return;
onlineUsers.set(socket.id, name);
io.emit('onlineUsers', ...); ...
const defaultRoom = 'global';
socket.join(defaultRoom);   // auto-join default room and send recent history
```
`memberships` is the set of rooms the requesting socket is joined to
(`socket.join` adds to it, idempotently). -/

structure SrvJoinResult where
  onlineUsers : List (String × String)   -- socketId -> username
  memberships : List String
  broadcast : Bool
deriving Repr, DecidableEq

def join_srv (onlineUsers : List (String × String)) (memberships : List String)
    (socketId : String) (clerkUsername username : Option String) : SrvJoinResult :=
  match jsOr clerkUsername username with
  | none => ⟨onlineUsers, memberships, false⟩
  | some n =>
    ⟨setAssoc onlineUsers socketId n,
     if memberships.contains "global" then memberships else memberships ++ ["global"],
     true⟩

/-- C5 counterexample: in src/server/server.js, a `join{username:'Alice'}`
request on a connection with no room memberships leaves the connection joined
to the default room `'global'` — `join` does change the connection's room
memberships. -/
theorem join_changes_memberships_cx :
    (join_srv [] [] "s1" none (some "Alice")).memberships = ["global"] ∧
    (join_srv [] [] "s1" none (some "Alice")).memberships ≠ ([] : List String) := by
  decide

/-! ## `socket.on('joinRoom')` of src/server/server.js (lines 356–386)

The handler requires the room to already exist in the `Room` collection:
`if (!exists) return ack && ack({ ok: false, error: 'room_not_found' })` —
there is no auto-creation.  The Mongo recent-window query
(`find({room}).sort({timestamp:-1}).limit(50)` then `reverse()`) is modelled
over a timestamp-ordered list as the last 50 messages of the room. -/

structure SrvJoinRoomResult where
  rooms : List String            -- names in the Room collection
  joined : Option String         -- `socket.join`
  sent : Option (List StoredMessage)  -- `roomMessages` emitted to the requester
  ack : Option Ack
deriving Repr, DecidableEq

def joinRoom_srv (roomsDb : List String) (msgStore : List StoredMessage)
    (room : Option String) : SrvJoinRoomResult :=
  match room with
  | none => ⟨roomsDb, none, none, some ⟨false, some "room required"⟩⟩
  | some r =>
    if r = "" then ⟨roomsDb, none, none, some ⟨false, some "room required"⟩⟩
    else if roomsDb.contains r then
      ⟨roomsDb, some r,
       some (lastN 50 (msgStore.filter (fun m => m.room == some r))), none⟩
    else ⟨roomsDb, none, none, some ⟨false, some "room_not_found"⟩⟩

/-- C4 counterexample: in src/server/server.js, `joinRoom` on an absent room
does not create the room and does not add the connection to any membership —
it fails with `room_not_found`. -/
theorem joinRoom_no_autocreate_cx :
    (joinRoom_srv [] [] (some "lobby")).rooms = ([] : List String) ∧
    (joinRoom_srv [] [] (some "lobby")).joined = none ∧
    (joinRoom_srv [] [] (some "lobby")).ack = some ⟨false, some "room_not_found"⟩ := by
  decide

/-! ## The in-memory server (src/unnamed/part_000, second document)

State: `MESSAGES` (global append-only archive) and `ROOMS`
(`Map name -> {name, createdBy, createdAt, messages}` in insertion order). -/

structure FileData where
  name : String
  data : String
  mime : String
deriving Repr, DecidableEq

structure MemMessage where
  id : String
  room : String
  senderId : String
  senderName : String
  text : Option String
  file : Option FileData
  timestamp : Nat
  isPrivate : Bool             -- `private`
deriving Repr, DecidableEq

structure RoomInfo where
  name : String
  createdBy : String
  createdAt : Nat
  messages : List MemMessage
deriving Repr, DecidableEq

structure MemState where
  messages : List MemMessage    -- MESSAGES
  rooms : List RoomInfo         -- ROOMS
deriving Repr, DecidableEq

/-- `if (ROOMS.has(msg.room)) { ROOMS.get(msg.room).messages.push(msg);
if (... .length > 2000) ... .shift(); }` — a no-op when the room is absent. -/
def pushRoomMessage : List RoomInfo → String → MemMessage → List RoomInfo
  | [], _, _ => []
  | r :: rs, room, msg =>
    if r.name == room then
      { r with messages :=
          if (r.messages ++ [msg]).length > 2000 then (r.messages ++ [msg]).drop 1
          else r.messages ++ [msg] } :: rs
    else r :: pushRoomMessage rs room msg

structure MemPayload where
  room : Option String
  text : Option String
  file : Option FileData
  priv : Bool                  -- `payload.private || false`
  fromField : Option String    -- may be sent by clients; the handler never reads it
deriving Repr, DecidableEq

structure MemMsgResult where
  state : MemState
  acks : List Ack
  msg : MemMessage
deriving Repr, DecidableEq

/-- `socket.on('message')` of the in-memory server (lines 530–549):
sender fields come from the connection-scoped `userId`/`userName`, the ack is
`ack({ok:true, id, ts})` when a callback was supplied. -/
def message_mem (st : MemState) (userId userName : String) (p : MemPayload)
    (newId : String) (nowT : Nat) (hasAck : Bool) : MemMsgResult :=
  let msg : MemMessage :=
    { id := newId, room := jsOrS p.room "global", senderId := userId,
      senderName := userName, text := p.text, file := p.file,
      timestamp := nowT, isPrivate := p.priv }
  { state := { messages := st.messages ++ [msg],
               rooms := pushRoomMessage st.rooms msg.room msg },
    acks := if hasAck then [⟨true, none⟩] else [],
    msg := msg }

/-- `socket.on('file_message')` of the in-memory server (lines 601–623). -/
def file_message_mem (st : MemState) (userId userName : String)
    (room : Option String) (fd : FileData) (newId : String) (nowT : Nat)
    (hasAck : Bool) : MemMsgResult :=
  let msg : MemMessage :=
    { id := newId, room := jsOrS room "global", senderId := userId,
      senderName := userName, text := none, file := some fd,
      timestamp := nowT, isPrivate := false }
  { state := { messages := st.messages ++ [msg],
               rooms := pushRoomMessage st.rooms msg.room msg },
    acks := if hasAck then [⟨true, none⟩] else [],
    msg := msg }

/-- The `safeHandler` wrapper (lines 367–379): the list of acknowledgement
invocations it performs, given the wrapped handler's outcome — `some acks`
when the handler ran to completion issuing `acks` itself, `none` when it threw
(before reaching its own ack, as in the wrapped handlers, whose ack is the
last statement). -/
def safeHandlerAcks (result : Option (List Ack)) (hasAck : Bool) : List Ack :=
  match result with
  | some acks => acks
  | none => if hasAck then [⟨false, some "server_error"⟩] else []

/-- C6 (amended): in the in-memory server a request carrying an ack callback
is acknowledged exactly once — the `message` handler acks `{ok:true,...}`
exactly once on its (total) success path, and `safeHandler` acks
`{ok:false, error:'server_error'}` exactly once when the wrapped handler
throws before acking; it passes a completed handler's acks through untouched.
(The Mongo server's `message` handler, by contrast, never invokes a callback
— see the counterexample.) -/
theorem ack_exactly_once_mem :
    (∀ (st : MemState) (uid uname : String) (p : MemPayload) (nid : String) (t : Nat),
      (message_mem st uid uname p nid t true).acks = [⟨true, none⟩]) ∧
    safeHandlerAcks none true = [⟨false, some "server_error"⟩] ∧
    (∀ acks : List Ack, safeHandlerAcks (some acks) true = acks) :=
  ⟨fun _ _ _ _ _ _ => rfl, rfl, fun _ => rfl⟩

/-! ## `GET /messages/paginate` of the in-memory server (lines 313–326)

```js
const room  = req.query.room || GLOBAL_ROOM;
const before = parseInt(req.query.before || Date.now(), 10);
const limit  = Math.min(parseInt(req.query.limit || "50", 10), 200);
const roomMsgs = MESSAGES.filter(m => (m.room || GLOBAL_ROOM) === room
                                   && (m.timestamp || Date.now()) < before);
const slice = roomMsgs.slice(Math.max(0, roomMsgs.length - limit), roomMsgs.length);
```
-/

/-- `m.room || 'global'` (an empty stored room name is falsy). -/
def effRoom (m : MemMessage) : String :=
  if m.room = "" then "global" else m.room

/-- `m.timestamp || Date.now()` (a zero timestamp is falsy). -/
def effTs (m : MemMessage) (nowT : Nat) : Nat :=
  if m.timestamp = 0 then nowT else m.timestamp

def paginate_mem (messages : List MemMessage) (room : Option String)
    (before limitQ : Option Nat) (nowT : Nat) : List MemMessage :=
  let r := jsOrS room "global"
  let b := before.getD nowT
  let limit := min (limitQ.getD 50) 200
  let roomMsgs := messages.filter (fun m => effRoom m == r && decide (effTs m nowT < b))
  roomMsgs.drop (roomMsgs.length - limit)

/-- C7: `paginate(room, before, limit)` returns only messages of the room with
timestamp strictly below `before`, at most `min limit 200` of them, in
(nondecreasing) timestamp order, and the result is the most recent suffix of
the room's filtered history. -/
theorem paginate_spec (messages : List MemMessage) (r : String) (T n nowT : Nat)
    (hr : r ≠ "")
    (hsorted : List.Pairwise (fun a b => a.timestamp ≤ b.timestamp) messages) :
    (∀ m ∈ paginate_mem messages (some r) (some T) (some n) nowT,
        effRoom m = r ∧ m.timestamp < T) ∧
    (paginate_mem messages (some r) (some T) (some n) nowT).length ≤ min n 200 ∧
    List.Pairwise (fun a b => a.timestamp ≤ b.timestamp)
      (paginate_mem messages (some r) (some T) (some n) nowT) ∧
    ∃ pre, messages.filter (fun m => effRoom m == r && decide (effTs m nowT < T))
      = pre ++ paginate_mem messages (some r) (some T) (some n) nowT := by
  have hjs : jsOrS (some r) "global" = r := by simp [jsOrS, truthy, hr]
  have hpag : paginate_mem messages (some r) (some T) (some n) nowT
      = (messages.filter (fun m => effRoom m == r && decide (effTs m nowT < T))).drop
        ((messages.filter (fun m => effRoom m == r && decide (effTs m nowT < T))).length
          - min n 200) := by
    simp only [paginate_mem, Option.getD_some]
    rw [hjs]
  refine ⟨?_, ?_, ?_, ?_⟩
  · intro m hm
    rw [hpag] at hm
    have hmem := List.drop_subset _ _ hm
    have hp := (List.mem_filter.mp hmem).2
    rw [Bool.and_eq_true] at hp
    have h1 : effRoom m = r := by simpa using hp.1
    have h2 : effTs m nowT < T := of_decide_eq_true hp.2
    refine ⟨h1, ?_⟩
    by_cases hts : m.timestamp = 0
    · have hnow : nowT < T := by simpa [effTs, hts] using h2
      omega
    · simpa [effTs, hts] using h2
  · rw [hpag, List.length_drop]
    omega
  · rw [hpag]
    exact List.Pairwise.sublist
      ((List.drop_sublist _ _).trans (List.filter_sublist _)) hsorted
  · rw [hpag]
    exact ⟨_, (List.take_append_drop _ _).symm⟩

theorem paginate_spec_witness :
    (∀ m ∈ paginate_mem
        [⟨"a1", "roomA", "u1", "U1", some "x", none, 1, false⟩,
         ⟨"a2", "roomA", "u1", "U1", some "y", none, 2, false⟩]
        (some "roomA") (some 3) (some 10) 5,
        effRoom m = "roomA" ∧ m.timestamp < 3) ∧
    (paginate_mem
        [⟨"a1", "roomA", "u1", "U1", some "x", none, 1, false⟩,
         ⟨"a2", "roomA", "u1", "U1", some "y", none, 2, false⟩]
        (some "roomA") (some 3) (some 10) 5).length ≤ min 10 200 ∧
    List.Pairwise (fun a b => a.timestamp ≤ b.timestamp)
      (paginate_mem
        [⟨"a1", "roomA", "u1", "U1", some "x", none, 1, false⟩,
         ⟨"a2", "roomA", "u1", "U1", some "y", none, 2, false⟩]
        (some "roomA") (some 3) (some 10) 5) ∧
    ∃ pre, List.filter (fun m => effRoom m == "roomA" && decide (effTs m 5 < 3))
        [⟨"a1", "roomA", "u1", "U1", some "x", none, 1, false⟩,
         ⟨"a2", "roomA", "u1", "U1", some "y", none, 2, false⟩]
      = pre ++ paginate_mem
        [⟨"a1", "roomA", "u1", "U1", some "x", none, 1, false⟩,
         ⟨"a2", "roomA", "u1", "U1", some "y", none, 2, false⟩]
        (some "roomA") (some 3) (some 10) 5 :=
  paginate_spec
    [⟨"a1", "roomA", "u1", "U1", some "x", none, 1, false⟩,
     ⟨"a2", "roomA", "u1", "U1", some "y", none, 2, false⟩]
    "roomA" 3 10 5 (by decide) (by decide)

theorem pushRoomMessage_cap (rooms : List RoomInfo) (room : String)
    (msg : MemMessage) (h : ∀ r ∈ rooms, r.messages.length ≤ 2000) :
    ∀ r ∈ pushRoomMessage rooms room msg, r.messages.length ≤ 2000 := by
  induction rooms with
  | nil =>
    intro r hr
    simp [pushRoomMessage] at hr
  | cons x xs ih =>
    intro r hr
    simp only [pushRoomMessage] at hr
    by_cases hx : (x.name == room) = true
    · rw [if_pos hx] at hr
      rcases List.mem_cons.mp hr with heq | hmem
      · subst heq
        dsimp only
        have hx2000 := h x (List.mem_cons_self x xs)
        by_cases hlen : (x.messages ++ [msg]).length > 2000
        · rw [if_pos hlen, List.length_drop, List.length_append,
            List.length_singleton]
          omega
        · rw [if_neg hlen]
          rw [List.length_append, List.length_singleton] at hlen
          rw [List.length_append, List.length_singleton]
          omega
      · exact h r (List.mem_cons_of_mem _ hmem)
    · rw [if_neg hx] at hr
      rcases List.mem_cons.mp hr with heq | hmem
      · subst heq
        exact h r (List.mem_cons_self r xs)
      · exact ih (fun y hy => h y (List.mem_cons_of_mem _ hy)) r hmem

theorem pushRoomMessage_find? (rooms : List RoomInfo) (room : String)
    (msg : MemMessage) (rm : RoomInfo)
    (h : rooms.find? (fun x => x.name == room) = some rm) :
    (pushRoomMessage rooms room msg).find? (fun x => x.name == room)
      = some { rm with messages :=
          if (rm.messages ++ [msg]).length > 2000 then (rm.messages ++ [msg]).drop 1
          else rm.messages ++ [msg] } := by
  induction rooms with
  | nil => simp at h
  | cons x xs ih =>
    rw [List.find?] at h
    cases hx : x.name == room with
    | true =>
      rw [hx] at h
      have hxr : x = rm := Option.some.inj h
      subst hxr
      simp only [pushRoomMessage]
      rw [if_pos hx]
      exact List.find?_cons_of_pos _ hx
    | false =>
      rw [hx] at h
      simp only [pushRoomMessage]
      rw [if_neg (by simp [hx])]
      rw [List.find?_cons_of_neg _ (by simp [hx])]
      exact ih h

/-- C9: after every append of a text or file message in the in-memory server,
every room buffer holds at most 2000 messages (the fixed cap); the global
archive `MESSAGES` always gains exactly the appended message and retains all
previous ones; and when the target room's buffer is exactly at the cap, its
oldest (head) message is the one evicted. -/
theorem room_buffer_cap (st : MemState) (uid uname nid : String)
    (p : MemPayload) (room : Option String) (fd : FileData) (t : Nat)
    (hcap : ∀ r ∈ st.rooms, r.messages.length ≤ 2000) :
    ((∀ r ∈ (message_mem st uid uname p nid t true).state.rooms,
        r.messages.length ≤ 2000) ∧
     (message_mem st uid uname p nid t true).state.messages
       = st.messages ++ [(message_mem st uid uname p nid t true).msg] ∧
     (∀ rm, st.rooms.find? (fun x => x.name == jsOrS p.room "global") = some rm →
        rm.messages.length = 2000 →
        (message_mem st uid uname p nid t true).state.rooms.find?
            (fun x => x.name == jsOrS p.room "global")
          = some { rm with messages :=
              rm.messages.drop 1 ++ [(message_mem st uid uname p nid t true).msg] })) ∧
    ((∀ r ∈ (file_message_mem st uid uname room fd nid t true).state.rooms,
        r.messages.length ≤ 2000) ∧
     (file_message_mem st uid uname room fd nid t true).state.messages
       = st.messages ++ [(file_message_mem st uid uname room fd nid t true).msg] ∧
     (∀ rm, st.rooms.find? (fun x => x.name == jsOrS room "global") = some rm →
        rm.messages.length = 2000 →
        (file_message_mem st uid uname room fd nid t true).state.rooms.find?
            (fun x => x.name == jsOrS room "global")
          = some { rm with messages :=
              rm.messages.drop 1 ++ [(file_message_mem st uid uname room fd nid t true).msg] })) := by
  constructor
  · refine ⟨?_, rfl, ?_⟩
    · intro r hr
      exact pushRoomMessage_cap st.rooms _ _ hcap r hr
    · intro rm hfind hlen
      have hpush := pushRoomMessage_find? st.rooms (jsOrS p.room "global")
        (message_mem st uid uname p nid t true).msg rm hfind
      have hover : (rm.messages ++ [(message_mem st uid uname p nid t true).msg]).length > 2000 := by
        rw [List.length_append, hlen]
        simp
      have hdrop : (rm.messages ++ [(message_mem st uid uname p nid t true).msg]).drop 1
          = rm.messages.drop 1 ++ [(message_mem st uid uname p nid t true).msg] :=
        List.drop_append_of_le_length (by omega)
      rw [if_pos hover, hdrop] at hpush
      exact hpush
  · refine ⟨?_, rfl, ?_⟩
    · intro r hr
      exact pushRoomMessage_cap st.rooms _ _ hcap r hr
    · intro rm hfind hlen
      have hpush := pushRoomMessage_find? st.rooms (jsOrS room "global")
        (file_message_mem st uid uname room fd nid t true).msg rm hfind
      have hover : (rm.messages ++ [(file_message_mem st uid uname room fd nid t true).msg]).length > 2000 := by
        rw [List.length_append, hlen]
        simp
      have hdrop : (rm.messages ++ [(file_message_mem st uid uname room fd nid t true).msg]).drop 1
          = rm.messages.drop 1 ++ [(file_message_mem st uid uname room fd nid t true).msg] :=
        List.drop_append_of_le_length (by omega)
      rw [if_pos hover, hdrop] at hpush
      exact hpush

/-- A concrete state whose only room buffer is exactly at the 2000 cap. -/
def capRoomState : MemState :=
  ⟨[], [⟨"general", "system", 0,
    List.replicate 2000 ⟨"i0", "general", "sys", "Sys", some "w", none, 1, false⟩⟩]⟩

def capPayload : MemPayload := ⟨some "general", some "hi", none, false, none⟩

def capFile : FileData := ⟨"f.txt", "ZGF0YQ==", "text/plain"⟩

theorem room_buffer_cap_witness :
    ((∀ r ∈ (message_mem capRoomState "u1" "U1" capPayload "n1" 9 true).state.rooms,
        r.messages.length ≤ 2000) ∧
     (message_mem capRoomState "u1" "U1" capPayload "n1" 9 true).state.messages
       = capRoomState.messages
         ++ [(message_mem capRoomState "u1" "U1" capPayload "n1" 9 true).msg] ∧
     (∀ rm, capRoomState.rooms.find?
          (fun x => x.name == jsOrS capPayload.room "global") = some rm →
        rm.messages.length = 2000 →
        (message_mem capRoomState "u1" "U1" capPayload "n1" 9 true).state.rooms.find?
            (fun x => x.name == jsOrS capPayload.room "global")
          = some { rm with messages := rm.messages.drop 1
              ++ [(message_mem capRoomState "u1" "U1" capPayload "n1" 9 true).msg] })) ∧
    ((∀ r ∈ (file_message_mem capRoomState "u1" "U1" (some "general") capFile
          "n1" 9 true).state.rooms, r.messages.length ≤ 2000) ∧
     (file_message_mem capRoomState "u1" "U1" (some "general") capFile
          "n1" 9 true).state.messages
       = capRoomState.messages
         ++ [(file_message_mem capRoomState "u1" "U1" (some "general") capFile
              "n1" 9 true).msg] ∧
     (∀ rm, capRoomState.rooms.find?
          (fun x => x.name == jsOrS (some "general") "global") = some rm →
        rm.messages.length = 2000 →
        (file_message_mem capRoomState "u1" "U1" (some "general") capFile
            "n1" 9 true).state.rooms.find?
            (fun x => x.name == jsOrS (some "general") "global")
          = some { rm with messages := rm.messages.drop 1
              ++ [(file_message_mem capRoomState "u1" "U1" (some "general") capFile
                   "n1" 9 true).msg] })) :=
  room_buffer_cap capRoomState "u1" "U1" "n1" capPayload (some "general") capFile 9
    (by
      intro r hr
      simp only [capRoomState, List.mem_singleton] at hr
      subst hr
      show (List.replicate 2000
        (⟨"i0", "general", "sys", "Sys", some "w", none, 1, false⟩ : MemMessage)).length
          ≤ 2000
      rw [List.length_replicate])

/-! ## `socket.on('join_room')` of the in-memory server (lines 491–517)

```js
const roomName = (room || "").toString().trim();
if (!roomName) return ack && ack({ ok: false, error: "room required" });
if (!ROOMS.has(roomName)) { ROOMS.set(roomName, { name: roomName,
  createdBy: user.userId || "unknown", createdAt: Date.now(), messages: [] }); ... }
socket.join(roomName);
const roomMsgs = ROOMS.get(roomName).messages.slice(-100);
socket.emit("room_messages", { room: roomName, messages: roomMsgs });
...
ack({ ok: true, room: roomName, messages: roomMsgs });
```
`sent` models the `room_messages` emission, which goes to the joining socket
only (`socket.emit`); `joined` models `socket.join`. -/

structure MemJoinRoomResult where
  rooms : List RoomInfo
  joined : Option String
  sent : List MemMessage
  ack : Ack
deriving Repr, DecidableEq

def roomMessagesOf (rooms : List RoomInfo) (name : String) : List MemMessage :=
  match rooms.find? (fun x => x.name == name) with
  | some ri => ri.messages
  | none => []

def join_room_mem (rooms : List RoomInfo) (userId : String) (nowT : Nat)
    (room : Option String) : MemJoinRoomResult :=
  let roomName := jsTrim (jsOrS room "")
  if roomName = "" then ⟨rooms, none, [], ⟨false, some "room required"⟩⟩
  else
    let rooms1 := match rooms.find? (fun x => x.name == roomName) with
      | some _ => rooms
      | none => rooms ++ [⟨roomName, jsOrS (some userId) "unknown", nowT, []⟩]
    ⟨rooms1, some roomName, lastN 100 (roomMessagesOf rooms1 roomName), ⟨true, none⟩⟩

/-- C4 (amended): an empty room name fails with `room required`; in the
in-memory server (`join_room`) an absent room is auto-created, the connection
is joined to it, the recent-message window (at most 100 messages) is sent to
the requester only, and the request is acknowledged `{ok:true}`; in the
MongoDB server (`joinRoom`) an absent room is *not* created — the request
fails with `room_not_found`, joining nothing. -/
theorem join_room_spec (rooms : List RoomInfo) (roomsDb : List String)
    (msgStore : List StoredMessage) (uid : String) (t : Nat) (room : String)
    (hroom : (jsTrim room) ≠ "") :
    (∀ r : String, jsTrim r = "" →
      join_room_mem rooms uid t (some r)
        = ⟨rooms, none, [], ⟨false, some "room required"⟩⟩) ∧
    (join_room_mem rooms uid t (some room)).joined = some (jsTrim room) ∧
    (∃ ri ∈ (join_room_mem rooms uid t (some room)).rooms, ri.name = (jsTrim room)) ∧
    (join_room_mem rooms uid t (some room)).sent.length ≤ 100 ∧
    (join_room_mem rooms uid t (some room)).ack = ⟨true, none⟩ ∧
    (rooms.find? (fun x => x.name == (jsTrim room)) = none →
      (join_room_mem rooms uid t (some room)).rooms
        = rooms ++ [⟨(jsTrim room), jsOrS (some uid) "unknown", t, []⟩] ∧
      (join_room_mem rooms uid t (some room)).sent = []) ∧
    (roomsDb.contains room = false →
      (joinRoom_srv roomsDb msgStore (some room)).rooms = roomsDb ∧
      (joinRoom_srv roomsDb msgStore (some room)).joined = none ∧
      (joinRoom_srv roomsDb msgStore (some room)).ack
        = some ⟨false, some "room_not_found"⟩) := by
  have hne : room ≠ "" := by
    intro h0
    apply hroom
    rw [h0]
    decide
  have hjs2 : jsOrS (some room) "" = room := by simp [jsOrS, truthy, hne]
  have hempty : ∀ r : String, jsTrim r = "" →
      join_room_mem rooms uid t (some r)
        = ⟨rooms, none, [], ⟨false, some "room required"⟩⟩ := by
    intro r hr
    have htrim : jsTrim (jsOrS (some r) "") = "" := by
      by_cases h0 : r = ""
      · subst h0
        decide
      · rw [show jsOrS (some r) "" = r from by simp [jsOrS, truthy, h0]]
        exact hr
    simp only [join_room_mem]
    rw [if_pos htrim]
  have hsrv : roomsDb.contains room = false →
      (joinRoom_srv roomsDb msgStore (some room)).rooms = roomsDb ∧
      (joinRoom_srv roomsDb msgStore (some room)).joined = none ∧
      (joinRoom_srv roomsDb msgStore (some room)).ack
        = some ⟨false, some "room_not_found"⟩ := by
    intro hc
    have hres : joinRoom_srv roomsDb msgStore (some room)
        = ⟨roomsDb, none, none, some ⟨false, some "room_not_found"⟩⟩ := by
      simp only [joinRoom_srv]
      rw [if_neg hne, if_neg (by rw [hc]; simp)]
    rw [hres]
    exact ⟨rfl, rfl, rfl⟩
  cases hfind : rooms.find? (fun x => x.name == (jsTrim room)) with
  | some ri =>
    have hres : join_room_mem rooms uid t (some room)
        = ⟨rooms, some (jsTrim room), lastN 100 (roomMessagesOf rooms (jsTrim room)),
           ⟨true, none⟩⟩ := by
      simp only [join_room_mem]
      rw [hjs2, if_neg hroom, hfind]
    refine ⟨hempty, ?_, ?_, ?_, ?_, ?_, hsrv⟩
    · rw [hres]
    · rw [hres]
      refine ⟨ri, List.mem_of_find?_eq_some hfind, ?_⟩
      have := List.find?_some hfind
      simpa using this
    · rw [hres]
      exact length_lastN _ _
    · rw [hres]
    · intro hnone
      exact Option.noConfusion hnone
  | none =>
    have hres : join_room_mem rooms uid t (some room)
        = ⟨rooms ++ [⟨(jsTrim room), jsOrS (some uid) "unknown", t, []⟩],
           some (jsTrim room),
           lastN 100 (roomMessagesOf
             (rooms ++ [⟨(jsTrim room), jsOrS (some uid) "unknown", t, []⟩]) (jsTrim room)),
           ⟨true, none⟩⟩ := by
      simp only [join_room_mem]
      rw [hjs2, if_neg hroom, hfind]
    have hmsgs : roomMessagesOf
        (rooms ++ [⟨(jsTrim room), jsOrS (some uid) "unknown", t, []⟩]) (jsTrim room)
        = [] := by
      unfold roomMessagesOf
      rw [find?_append_none _ _ _ hfind]
      simp [List.find?]
    refine ⟨hempty, ?_, ?_, ?_, ?_, ?_, hsrv⟩
    · rw [hres]
    · rw [hres]
      exact ⟨⟨(jsTrim room), jsOrS (some uid) "unknown", t, []⟩, by simp, rfl⟩
    · rw [hres]
      exact length_lastN _ _
    · rw [hres]
    · intro _
      constructor
      · rw [hres]
      · simp only [hres, hmsgs, lastN, List.drop_nil]

theorem join_room_spec_witness :
    (∀ r : String, jsTrim r = "" →
      join_room_mem ([] : List RoomInfo) "u1" 7 (some r)
        = ⟨[], none, [], ⟨false, some "room required"⟩⟩) ∧
    (join_room_mem ([] : List RoomInfo) "u1" 7 (some "lobby")).joined
      = some (jsTrim "lobby") ∧
    (∃ ri ∈ (join_room_mem ([] : List RoomInfo) "u1" 7 (some "lobby")).rooms,
      ri.name = (jsTrim "lobby")) ∧
    (join_room_mem ([] : List RoomInfo) "u1" 7 (some "lobby")).sent.length ≤ 100 ∧
    (join_room_mem ([] : List RoomInfo) "u1" 7 (some "lobby")).ack = ⟨true, none⟩ ∧
    (([] : List RoomInfo).find? (fun x => x.name == (jsTrim "lobby")) = none →
      (join_room_mem ([] : List RoomInfo) "u1" 7 (some "lobby")).rooms
        = [] ++ [⟨(jsTrim "lobby"), jsOrS (some "u1") "unknown", 7, []⟩] ∧
      (join_room_mem ([] : List RoomInfo) "u1" 7 (some "lobby")).sent = []) ∧
    (List.contains ([] : List String) "lobby" = false →
      (joinRoom_srv ([] : List String) ([] : List StoredMessage) (some "lobby")).rooms = [] ∧
      (joinRoom_srv ([] : List String) ([] : List StoredMessage) (some "lobby")).joined = none ∧
      (joinRoom_srv ([] : List String) ([] : List StoredMessage) (some "lobby")).ack
        = some ⟨false, some "room_not_found"⟩) :=
  join_room_spec ([] : List RoomInfo) ([] : List String) ([] : List StoredMessage)
    "u1" 7 "lobby" (by decide)

/-! ## `socket.on('join')` of the in-memory server (lines 441–463)

```js
const uname = (username || userName || "Anonymous").toString().trim();
const canonicalId = socket.handshake?.auth?.userId || userId || `anon-${socket.id.slice(0,6)}`;
if (!USERS_BY_ID.has(canonicalId)) {
  USERS_BY_ID.set(canonicalId, { userName: uname, sockets: new Set() });
} else { const existing = USERS_BY_ID.get(canonicalId);
         if (existing.userName !== uname) existing.userName = uname; }
USERS_BY_ID.get(canonicalId).sockets.add(socket.id);
ONLINE.set(socket.id, { userId: canonicalId, userName: uname });
broadcastUsers();
if (typeof ack === "function") ack({ ok: true, id: canonicalId, name: uname });
```
The handler contains no `socket.join` call: the connection's room memberships
are carried through untouched. -/

structure UserEntry where
  userName : String
  sockets : List String
deriving Repr, DecidableEq

structure OnlineEntry where
  userId : String
  userName : String
deriving Repr, DecidableEq

structure MemJoinState where
  usersById : List (String × UserEntry)   -- USERS_BY_ID
  online : List (String × OnlineEntry)    -- ONLINE
  memberships : List String               -- rooms this socket is joined to
deriving Repr, DecidableEq

structure MemJoinResult where
  state : MemJoinState
  broadcast : Bool
  ack : Ack
deriving Repr, DecidableEq

def join_mem (st : MemJoinState) (socketId connUserId connUserName : String)
    (handshakeUserId username : Option String) : MemJoinResult :=
  let uname := jsTrim (jsOrS username (jsOrS (some connUserName) "Anonymous"))
  let canonicalId := jsOrS handshakeUserId
    (jsOrS (some connUserId) ("anon-" ++ socketId.take 6))
  let users1 :=
    match st.usersById.find? (fun x => x.1 == canonicalId) with
    | none => st.usersById ++ [(canonicalId, ⟨uname, []⟩)]
    | some _ => modFirst (fun x => x.1 == canonicalId)
        (fun x => (x.1, { x.2 with userName := uname })) st.usersById
  let users2 := modFirst (fun x => x.1 == canonicalId)
    (fun x => (x.1, { x.2 with sockets :=
        if socketId ∈ x.2.sockets then x.2.sockets
        else x.2.sockets ++ [socketId] })) users1
  { state := { usersById := users2,
               online := setAssoc st.online socketId ⟨canonicalId, uname⟩,
               memberships := st.memberships },
    broadcast := true,
    ack := ⟨true, none⟩ }

/-- C5 (amended): in the in-memory server, a `join{username}` request with a
non-empty username after trim registers the identity (the canonical id maps to
an entry carrying this socket and the trimmed name, and `ONLINE` maps the
socket to that identity), broadcasts a presence snapshot, acks `{ok:true}`,
and leaves the connection's room memberships unchanged.  In the MongoDB
server, by contrast, `join` additionally auto-joins the default room
`'global'` (see the counterexample). -/
theorem join_register_no_rooms (st : MemJoinState)
    (socketId connUserId connUserName : String)
    (handshakeUserId : Option String) (uname0 : String)
    (htrim : jsTrim uname0 ≠ "") :
    (join_mem st socketId connUserId connUserName handshakeUserId
        (some uname0)).state.memberships = st.memberships ∧
    (join_mem st socketId connUserId connUserName handshakeUserId
        (some uname0)).broadcast = true ∧
    (join_mem st socketId connUserId connUserName handshakeUserId
        (some uname0)).ack = ⟨true, none⟩ ∧
    (∃ e : UserEntry,
      (join_mem st socketId connUserId connUserName handshakeUserId
          (some uname0)).state.usersById.find?
          (fun x => x.1 == jsOrS handshakeUserId
            (jsOrS (some connUserId) ("anon-" ++ socketId.take 6)))
        = some (jsOrS handshakeUserId
            (jsOrS (some connUserId) ("anon-" ++ socketId.take 6)), e) ∧
      socketId ∈ e.sockets ∧ e.userName = jsTrim uname0) ∧
    lookupA (join_mem st socketId connUserId connUserName handshakeUserId
        (some uname0)).state.online socketId
      = some ⟨jsOrS handshakeUserId (jsOrS (some connUserId)
          ("anon-" ++ socketId.take 6)), jsTrim uname0⟩ := by
  have hne0 : uname0 ≠ "" := by
    intro h0
    apply htrim
    rw [h0]
    decide
  have huser : jsOrS (some uname0) (jsOrS (some connUserName) "Anonymous")
      = uname0 := by
    simp [jsOrS, truthy, hne0]
  set cid := jsOrS handshakeUserId
    (jsOrS (some connUserId) ("anon-" ++ socketId.take 6)) with hcid
  set f2 : String × UserEntry → String × UserEntry :=
    fun x => (x.1, { x.2 with sockets :=
        if socketId ∈ x.2.sockets then x.2.sockets
        else x.2.sockets ++ [socketId] }) with hf2
  set f1 : String × UserEntry → String × UserEntry :=
    fun x =>
      (x.1, { x.2 with userName := jsTrim (jsOrS (some uname0) (jsOrS (some connUserName) "Anonymous")) })
    with hf1
  refine ⟨rfl, rfl, rfl, ?_, ?_⟩
  · cases hfind0 : st.usersById.find? (fun x => x.1 == cid) with
    | none =>
      have husers2 : (join_mem st socketId connUserId connUserName handshakeUserId
            (some uname0)).state.usersById
          = modFirst (fun x => x.1 == cid) f2
              (st.usersById ++
                [(cid, ⟨jsTrim (jsOrS (some uname0)
                    (jsOrS (some connUserName) "Anonymous")), []⟩)]) := by
        simp only [join_mem]
        rw [hfind0]
      have hfind1 : (st.usersById ++
            [(cid, (⟨jsTrim (jsOrS (some uname0)
                (jsOrS (some connUserName) "Anonymous")), []⟩ : UserEntry))]).find?
            (fun x => x.1 == cid)
          = some (cid, ⟨jsTrim (jsOrS (some uname0)
              (jsOrS (some connUserName) "Anonymous")), []⟩) := by
        rw [find?_append_none _ _ _ hfind0]
        simp [List.find?]
      refine ⟨⟨jsTrim uname0, [socketId]⟩, ?_, by simp, rfl⟩
      rw [husers2,
        find?_modFirst (fun x => x.1 == cid) f2 _ _ hfind1 (by simp [hf2])]
      simp [hf2, huser]
    | some entry =>
      obtain ⟨k, v⟩ := entry
      have hkey : k = cid := by
        have := List.find?_some hfind0
        simpa using this
      subst hkey
      have husers2 : (join_mem st socketId connUserId connUserName handshakeUserId
            (some uname0)).state.usersById
          = modFirst (fun x => x.1 == cid) f2
              (modFirst (fun x => x.1 == cid) f1 st.usersById) := by
        simp only [join_mem]
        rw [hfind0]
      have hfind1 : (modFirst (fun x => x.1 == cid) f1 st.usersById).find?
            (fun x => x.1 == cid) = some (f1 (cid, v)) :=
        find?_modFirst _ _ _ _ hfind0 (by simp [hf1])
      have hfind2 : (modFirst (fun x => x.1 == cid) f2
            (modFirst (fun x => x.1 == cid) f1 st.usersById)).find?
            (fun x => x.1 == cid) = some (f2 (f1 (cid, v))) :=
        find?_modFirst _ _ _ _ hfind1 (by simp [hf1, hf2])
      refine ⟨⟨jsTrim uname0,
        if socketId ∈ v.sockets then v.sockets else v.sockets ++ [socketId]⟩,
        ?_, ?_, rfl⟩
      · rw [husers2, hfind2]
        simp [hf1, hf2, huser]
      · by_cases hmem : socketId ∈ v.sockets
        · simp [hmem]
        · simp [hmem]
  · have honline : (join_mem st socketId connUserId connUserName handshakeUserId
        (some uname0)).state.online
        = setAssoc st.online socketId
            ⟨cid, jsTrim (jsOrS (some uname0)
              (jsOrS (some connUserName) "Anonymous"))⟩ := rfl
    rw [honline, huser]
    exact lookupA_setAssoc _ _ _

theorem join_register_no_rooms_witness :
    (join_mem ⟨[], [], ["global"]⟩ "s1" "u1" "Anonymous" none
        (some "Alice")).state.memberships = ["global"] ∧
    (join_mem ⟨[], [], ["global"]⟩ "s1" "u1" "Anonymous" none
        (some "Alice")).broadcast = true ∧
    (join_mem ⟨[], [], ["global"]⟩ "s1" "u1" "Anonymous" none
        (some "Alice")).ack = ⟨true, none⟩ ∧
    (∃ e : UserEntry,
      (join_mem ⟨[], [], ["global"]⟩ "s1" "u1" "Anonymous" none
          (some "Alice")).state.usersById.find?
          (fun x => x.1 == jsOrS none (jsOrS (some "u1") ("anon-" ++ "s1".take 6)))
        = some (jsOrS none (jsOrS (some "u1") ("anon-" ++ "s1".take 6)), e) ∧
      "s1" ∈ e.sockets ∧ e.userName = jsTrim "Alice") ∧
    lookupA (join_mem ⟨[], [], ["global"]⟩ "s1" "u1" "Anonymous" none
        (some "Alice")).state.online "s1"
      = some ⟨jsOrS none (jsOrS (some "u1") ("anon-" ++ "s1".take 6)), jsTrim "Alice"⟩ :=
  join_register_no_rooms ⟨[], [], ["global"]⟩ "s1" "u1" "Anonymous" none "Alice"
    (by decide)

end RTChat
